import Mathlib

/-!
# Verification of the `bitlight-ssi-man` identity store

A shallow embedding of the crate's core: the `SsiStore` contract and its two
backends (`SsiMemoryStore` in `src/memory.rs`, `SsiSqliteStore` in
`src/sqlite.rs`), the `SsiMan` manager (`src/lib.rs`) and the FFI adapter
(`src/ffi.rs`).

Modelling conventions:
* The external `ssi` crypto crate and the diesel/SQLite driver are black boxes
  (spec §1): their operations are parameters, bundled in `SsiCrypto`, and SQL
  behaviour is modelled directly on a list of rows.
* Rust `usize` arithmetic is modelled with `Nat`; the checked (debug-profile)
  subtraction and multiplication that can panic on overflow are modelled by
  `usizeSub` / `usizeMul` returning `Option Nat`, `none` standing for the
  arithmetic-overflow panic.
* Fallible Rust functions returning `Result<T, Error>` become
  `Except Error T`.
-/

namespace SsiMan

/-- Diesel backend errors that the embedded code can produce
(`diesel::result::Error`), restricted to the variants reachable here:
`NotFound` from `get_result` on zero rows, `DeserializationError` from a
failing `FromSql`, and the `UniqueViolation` database error from inserting a
duplicate primary key. -/
inductive DieselError where
  | notFound
  | deserialization
  | uniqueViolation
  deriving DecidableEq, Repr

/-- Opaque error of `ssi::RevealError` (wrong-password / corrupt ciphertext
during `EncryptedSecret::reveal`). -/
structure RevealError where
  msg : String
  deriving DecidableEq, Repr

/-- Rust `ssi::SignerError`; the crate only ever constructs `WrongPassword`
(src/lib.rs line 128). -/
inductive SignerError where
  | wrongPassword
  deriving DecidableEq, Repr

/-- The crate's error enum (src/lib.rs lines 19-44). Payloads that the claims
never inspect are dropped. -/
inductive Error where
  | Diesel (e : DieselError)
  | DieselMigration (s : String)
  | SecretReveal (e : RevealError)
  | Signer (e : SignerError)
  | SqliteConnection
  | SsiCertParse
  | SsiParse
  | VerifyText
  | UidParse
  | UnknownIdentity (id : String)
  deriving DecidableEq, Repr

/-- The interface of the external `ssi` crate as used by this crate
(src/lib.rs): UID parsing, key generation products, concealment/reveal,
public-key derivation, text rendering/parsing of `Ssi` and `EncryptedSecret`
(the `Display`/`FromStr` instances the sqlite text adapter composes), and
certificate production. All are opaque parameters (spec §1: external
collaborators, black box). -/
structure SsiCrypto (Uid Ssi Secret ESecret PubKey : Type) where
  parseUid : String → Option Uid
  mkSsi : Uid → Secret → Ssi
  pkOf : Ssi → PubKey
  conceal : Secret → String → ESecret
  reveal : ESecret → String → Except RevealError Secret
  toPublic : Secret → PubKey
  renderSsi : Ssi → String
  parseSsi : String → Option Ssi
  renderSecret : ESecret → String
  parseSecret : String → Option ESecret
  signRender : Ssi → Secret → String → String

/-- Rust `static DEFAULT_EMPTY_PASSWORD: &str = ""` (src/lib.rs line 17). -/
def DEFAULT_EMPTY_PASSWORD : String := ""

/-- Checked `usize` subtraction: Rust's debug-profile overflow check panics on
underflow, modelled by `none`. -/
def usizeSub (a b : Nat) : Option Nat :=
  if b ≤ a then some (a - b) else none

/-- Checked `usize` multiplication; `none` models the debug-profile overflow
panic. -/
def usizeMul (a b : Nat) : Option Nat :=
  if a * b < 2 ^ 64 then some (a * b) else none

/-- Rust `usize::MAX`. -/
def USIZE_MAX : Nat := 2 ^ 64 - 1

/-- Rust `(total as f64 / per_page as f64).ceil() as usize`
(src/sqlite.rs line 148). For `per_page = 0` the f64 division yields NaN
(`as usize` = 0) when `total = 0` and +inf (saturating to `usize::MAX`)
otherwise; for `per_page ≥ 1` the result is ceiling division, exact in f64 for
every table size below 2^53. -/
def f64CeilPages (total perPage : Nat) : Nat :=
  if perPage = 0 then (if total = 0 then 0 else USIZE_MAX)
  else (total + perPage - 1) / perPage

section Stores

variable {Uid Ssi Secret ESecret PubKey : Type}

/-! ## Memory backend (src/memory.rs)

`SsiMemoryStore` wraps a `HashMap<String, (Ssi, EncryptedSecret)>`. It is
modelled as an association list with distinct keys maintained by `insert`
(replace in place on an existing key, append otherwise); `HashMap`'s iteration
order is arbitrary but fixed between mutations, which the list order models. -/

/-- The records of a `SsiMemoryStore`. -/
abbrev MemStore (Ssi ESecret : Type) : Type := List (String × Ssi × ESecret)

/-- Rust `SsiMemoryStore::insert` (src/memory.rs lines 12-15):
`self.records.insert(identity, (ssi, secret)); Ok(())` — replaces the value
when the key is present, adds the entry otherwise; never fails. -/
def MemStore.insert (recs : MemStore Ssi ESecret) (identity : String)
    (ssi : Ssi) (secret : ESecret) : MemStore Ssi ESecret :=
  if recs.any (fun r => r.1 = identity) then
    recs.map (fun r => if r.1 = identity then (identity, ssi, secret) else r)
  else
    recs ++ [(identity, ssi, secret)]

/-- Rust `SsiMemoryStore::get` (src/memory.rs lines 17-22): look the key up,
`Err(Error::UnknownIdentity(identity))` when absent. -/
def MemStore.get (recs : MemStore Ssi ESecret) (identity : String) :
    Except Error (Ssi × ESecret) :=
  match recs.find? (fun r => r.1 = identity) with
  | some r => .ok r.2
  | none => .error (.UnknownIdentity identity)

/-- Rust `SsiMemoryStore::remove` (src/memory.rs lines 24-26):
`Ok(self.records.remove(identity).is_some())`. Returns the updated records
and whether the key was present. -/
def MemStore.remove (recs : MemStore Ssi ESecret) (identity : String) :
    Except Error (Bool × MemStore Ssi ESecret) :=
  .ok (recs.any (fun r => r.1 = identity),
       recs.filter (fun r => ¬ r.1 = identity))

/-- Rust `SsiMemoryStore::paginated_identities` (src/memory.rs lines 28-42):
`Ok((keys().skip((page - 1) * per_page).take(per_page).collect(),
records.len()))`. The second component is the **record count**
`self.records.len()`, not a page count. `none` models the panic of the
checked `usize` arithmetic in `(page - 1) * per_page`. -/
def MemStore.paginated_identities (recs : MemStore Ssi ESecret)
    (page perPage : Nat) : Option (List String × Nat) := do
  let p0 ← usizeSub page 1
  let off ← usizeMul p0 perPage
  pure (((recs.map (fun r => r.1)).drop off).take perPage, recs.length)

/-- Rust `SsiMemoryStore::all_identities` (src/memory.rs lines 44-46). -/
def MemStore.all_identities (recs : MemStore Ssi ESecret) :
    Except Error (List String) :=
  .ok (recs.map (fun r => r.1))

/-! ## Durable (sqlite) backend (src/sqlite.rs)

The table `ssi_secrets` has columns `(id: text primary key, ssi: text,
secret: text)`; the schema itself lives in the crate's `migrations/` directory
and `src/schema.rs`, which are not part of the sources here, so the
primary-key constraint is modelled from the spec (§4.3: "a relational table
with columns (identifier: text primary key, …)"). A store is the list of rows
in insertion (rowid) order. The `SqliteTextWrapper` adapter
(src/sqlite.rs lines 54-75) renders a value with `Display` on the way in and
parses it with `FromStr` on the way out, turning parse failures into diesel
deserialization errors. -/

/-- One row of the `ssi_secrets` table (the `SsiSecret` record struct,
src/sqlite.rs lines 77-84), in its on-disk text form. -/
structure Row where
  id : String
  ssi : String
  secret : String
  deriving DecidableEq, Repr

/-- The rows of a `SsiSqliteStore`, in storage order. -/
abbrev SqlStore : Type := List Row

/-- Rust `SqliteTextWrapper::to_sql` (src/sqlite.rs lines 54-62): store
`self.0.to_string()` in the text column. -/
def sqlToSql (render : α → String) (v : α) : String := render v

/-- Rust `SqliteTextWrapper::from_sql` (src/sqlite.rs lines 64-75): read the text
column and `T::from_str` it; a parse failure becomes a diesel
deserialization error. -/
def sqlFromSql (parse : String → Option α) (text : String) :
    Except Error α :=
  match parse text with
  | some v => .ok v
  | none => .error (.Diesel .deserialization)

/-- Deserialize one loaded row through the text adapter, as diesel's `load` /
`get_result` of `SsiSecret` does for the `ssi` and `secret` columns. -/
def Row.deserialize (C : SsiCrypto Uid Ssi Secret ESecret PubKey)
    (r : Row) : Except Error (String × Ssi × ESecret) := do
  let s ← sqlFromSql C.parseSsi r.ssi
  let e ← sqlFromSql C.parseSecret r.secret
  pure (r.id, s, e)

/-- Rust `SsiSqliteStore::insert` (src/sqlite.rs lines 100-112): a plain
`INSERT INTO ssi_secrets VALUES (id, render(ssi), render(secret))`. With `id`
the text primary key (modelled from the spec, see above), a duplicate
identifier violates the UNIQUE constraint and the statement fails with a
wrapped diesel database error instead of overwriting. -/
def SqlStore.insert (C : SsiCrypto Uid Ssi Secret ESecret PubKey)
    (rows : SqlStore) (id : String) (ssi : Ssi) (secret : ESecret) :
    Except Error SqlStore :=
  if rows.any (fun r => r.id = id) then
    .error (.Diesel .uniqueViolation)
  else
    .ok (rows ++ [⟨id, sqlToSql C.renderSsi ssi, sqlToSql C.renderSecret secret⟩])

/-- Rust `SsiSqliteStore::get` (src/sqlite.rs lines 114-121):
`filter(id.eq(id)).get_result::<SsiSecret>()`, the diesel error mapped with
`Into` into `Error::Diesel`. On zero matching rows `get_result` returns
`diesel::result::Error::NotFound`, so the caller sees `Error::Diesel(NotFound)`
(not `UnknownIdentity`); on a matching row both text columns run through the
adapter's `from_str`. -/
def SqlStore.get (C : SsiCrypto Uid Ssi Secret ESecret PubKey)
    (rows : SqlStore) (id : String) : Except Error (Ssi × ESecret) :=
  match rows.find? (fun r => r.id = id) with
  | none => .error (.Diesel .notFound)
  | some r => do
      let d ← r.deserialize C
      pure d.2

/-- Rust `SsiSqliteStore::remove` (src/sqlite.rs lines 123-129):
`DELETE FROM ssi_secrets WHERE id = ?`, then `Ok(rows_affected == 1)`. -/
def SqlStore.remove (rows : SqlStore) (id : String) :
    Except Error (Bool × SqlStore) :=
  .ok ((rows.filter (fun r => r.id = id)).length == 1,
       rows.filter (fun r => ¬ r.id = id))

/-- Rust `SsiSqliteStore::paginated_identities` (src/sqlite.rs lines 131-151):
inside one transaction, `SELECT count(*)`, then a `SELECT … OFFSET
(page-1)*per_page LIMIT per_page` load of full `SsiSecret` records (each row
deserialized through the text adapter) mapped to their ids, with
`total_pages = (total as f64 / per_page as f64).ceil() as usize`. `none`
models the checked-arithmetic panic in `(page - 1) * per_page`; the `as i64`
casts of offset and limit are value-preserving below 2^63. -/
def SqlStore.paginated_identities (C : SsiCrypto Uid Ssi Secret ESecret PubKey)
    (rows : SqlStore) (page perPage : Nat) :
    Option (Except Error (List String × Nat)) := do
  let p0 ← usizeSub page 1
  let off ← usizeMul p0 perPage
  pure (do
    let total := rows.length
    let loaded ← ((rows.drop off).take perPage).mapM (Row.deserialize C)
    pure (loaded.map (fun d => d.1), f64CeilPages total perPage))

/-- Rust `SsiSqliteStore::all_identities` (src/sqlite.rs lines 153-160): load all
records (through the adapter) and keep their ids. -/
def SqlStore.all_identities (C : SsiCrypto Uid Ssi Secret ESecret PubKey)
    (rows : SqlStore) : Except Error (List String) := do
  let loaded ← rows.mapM (Row.deserialize C)
  pure (loaded.map (fun d => d.1))

/-! ## The store object behind `Box<dyn SsiStore>` (src/lib.rs lines 54-69) -/

/-- The two implementations of the `SsiStore` trait a `SsiMan` can own. -/
inductive Store (Ssi ESecret : Type) where
  | memory (recs : MemStore Ssi ESecret)
  | sqlite (rows : SqlStore)

/-- Dynamic dispatch of `SsiStore::insert`. Returns the updated store. -/
def Store.insert (C : SsiCrypto Uid Ssi Secret ESecret PubKey)
    (st : Store Ssi ESecret) (id : String) (ssi : Ssi) (secret : ESecret) :
    Except Error (Store Ssi ESecret) :=
  match st with
  | .memory recs => .ok (.memory (MemStore.insert recs id ssi secret))
  | .sqlite rows => (SqlStore.insert C rows id ssi secret).map .sqlite

/-- Dynamic dispatch of `SsiStore::get`. -/
def Store.get (C : SsiCrypto Uid Ssi Secret ESecret PubKey)
    (st : Store Ssi ESecret) (id : String) : Except Error (Ssi × ESecret) :=
  match st with
  | .memory recs => MemStore.get recs id
  | .sqlite rows => SqlStore.get C rows id

/-- Dynamic dispatch of `SsiStore::remove`. -/
def Store.remove (st : Store Ssi ESecret) (id : String) :
    Except Error (Bool × Store Ssi ESecret) :=
  match st with
  | .memory recs => (MemStore.remove recs id).map (fun p => (p.1, .memory p.2))
  | .sqlite rows => (SqlStore.remove rows id).map (fun p => (p.1, .sqlite p.2))

end Stores

/-! ## The manager (src/lib.rs lines 95-150)

`SsiMan` owns a `Box<dyn SsiStore>`; its methods thread the store through.
`SsiSecret::new(Algo::Ed25519, Chain::Bitcoin)` draws fresh randomness, so the
generated secret is an explicit argument `fresh`. -/

section Manager

variable {Uid Ssi Secret ESecret PubKey : Type} [DecidableEq PubKey]

/-- Rust `SsiMan::new_ssi` (src/lib.rs lines 96-117): parse
`"{identity} <mailto:{email}>"` as a `Uid` (failure → `Error::UidParse`),
generate a fresh secret, build the `Ssi`, render it, then
`store.insert(identity, ssi, secret.conceal(passwd.unwrap_or("")))` and map a
successful insert to the pre-rendered text. Cryptographic work happens before
the insert; an insert error is returned as-is and the store is unchanged. -/
def new_ssi (C : SsiCrypto Uid Ssi Secret ESecret PubKey) (fresh : Secret)
    (st : Store Ssi ESecret) (identity email : String)
    (optionalPasswd : Option String) :
    Except Error (String × Store Ssi ESecret) :=
  match C.parseUid (identity ++ " <mailto:" ++ email ++ ">") with
  | none => .error .UidParse
  | some uid =>
    let secret := fresh
    let ssi := C.mkSsi uid secret
    let ssiString := C.renderSsi ssi
    (Store.insert C st identity ssi
        (C.conceal secret (optionalPasswd.getD DEFAULT_EMPTY_PASSWORD))).map
      (fun st' => (ssiString, st'))

/-- Rust `SsiMan::sign` (src/lib.rs lines 119-133): `get` the record, `reveal` the
secret with the supplied password (empty default), compare the revealed key's
public value with the stored `Ssi`'s `pk` — mismatch returns
`Error::Signer(SignerError::WrongPassword)` — then sign the message and
render the certificate. -/
def sign (C : SsiCrypto Uid Ssi Secret ESecret PubKey)
    (st : Store Ssi ESecret) (ssiId : String) (message : String)
    (passwd : Option String) : Except Error String := do
  let record ← Store.get C st ssiId
  let secret ← (C.reveal record.2 (passwd.getD DEFAULT_EMPTY_PASSWORD)).mapError
    Error.SecretReveal
  if C.toPublic secret ≠ C.pkOf record.1 then
    throw (Error.Signer .wrongPassword)
  else
    pure (C.signRender record.1 secret message)

end Manager

/-! ## FFI adapter (src/ffi.rs)

C strings are modelled by `String`; a nullable `*const c_char` by
`Option String`. A function returning `*mut c_char` with the null-pointer
failure sentinel becomes `Option String` (`none` = null). The file system a
sqlite path points at is a parameter `world : String → SqlStore` (the rows the
freshly opened database contains). Each entry point builds its own `SsiMan`
via `ssi_man_new` (src/ffi.rs lines 26-38): a null `db_path` selects a fresh
empty memory backend, otherwise a sqlite backend at that path. -/

section Ffi

variable {Uid Ssi Secret ESecret PubKey : Type} [DecidableEq PubKey]

/-- Rust `ssi_man_new` (src/ffi.rs lines 26-38): null path → fresh
`SsiMan::with_memory()` (an empty memory store); non-null path →
`SsiMan::with_sqlite(path)` over whatever rows the database at `path` holds. -/
def ssi_man_new (world : String → SqlStore) (dbPath : Option String) :
    Store Ssi ESecret :=
  match dbPath with
  | none => .memory []
  | some path => .sqlite (world path)

/-- Rust `ssi_sign` (src/ffi.rs lines 55-70): build a manager from `db_path`, call
`sign(ssi, message, None)`, return the certificate text or the null sentinel
on any error. -/
def ssi_sign (C : SsiCrypto Uid Ssi Secret ESecret PubKey)
    (world : String → SqlStore) (ssiId message : String)
    (dbPath : Option String) : Option String :=
  match sign C (ssi_man_new world dbPath) ssiId message none with
  | .ok cert => some cert
  | .error _ => none

/-- Rust `ssi_new` (src/ffi.rs lines 41-52): build a manager from `db_path`, call
`new_ssi(name, email, None)`, return the identity text or the null sentinel. -/
def ssi_new (C : SsiCrypto Uid Ssi Secret ESecret PubKey) (fresh : Secret)
    (world : String → SqlStore) (name email : String)
    (dbPath : Option String) : Option String :=
  match new_ssi C fresh (ssi_man_new world dbPath) name email none with
  | .ok res => some res.1
  | .error _ => none

end Ffi

/-- A heap pointer to a C string, for `free_string_array`; the concrete
representation is irrelevant, only identity matters. -/
abbrev CStrPtr : Type := Nat

/-- The loop body of `free_string_array` (src/ffi.rs lines 112-119): walk the
`len` reconstructed slice elements in order and `drop(CString::from_raw(s))`
each non-null one. The result lists the pointers freed, in order — each list
entry is one `drop`, i.e. one free. -/
def freeLoop : List (Option CStrPtr) → List CStrPtr
  | [] => []
  | none :: rest => freeLoop rest
  | some p :: rest => p :: freeLoop rest

/-- Rust `free_string_array(array, len)` (src/ffi.rs lines 107-120): a null array
pointer returns immediately (no free); otherwise
`slice::from_raw_parts(array, len)` yields the first `len` elements and the
loop frees the non-null ones. The value is the list of pointers freed. -/
def free_string_array (array : Option (List (Option CStrPtr))) (len : Nat) :
    List CStrPtr :=
  match array with
  | none => []
  | some ptrs => freeLoop (ptrs.take len)

/-! ## A concrete instantiation of the external crate, for evaluation

All opaque types are `Nat`; rendering writes `n` as a string of `n` `'a'`s and
parsing reads the length back, so the text adapter round-trips exactly.
`conceal` adds the password length, `reveal` subtracts it. -/

/-- Render a `Nat` as `n` copies of `'a'`. -/
def natRender (n : Nat) : String := String.mk (List.replicate n 'a')

/-- Parse a string back to the `Nat` it renders: its length. -/
def natParse (s : String) : Option Nat := some s.length

theorem natParse_natRender (n : Nat) : natParse (natRender n) = some n := by
  simp [natParse, natRender, String.length]

/-- A concrete `SsiCrypto` instance over `Nat`, used to evaluate the embedded
code on explicit inputs. -/
def testCrypto : SsiCrypto Nat Nat Nat Nat Nat where
  parseUid s := some s.length
  mkSsi u s := 2 * u + s
  pkOf n := n
  conceal s p := s + p.length
  reveal e p := .ok (e - p.length)
  toPublic s := s
  renderSsi := natRender
  parseSsi := natParse
  renderSecret := natRender
  parseSecret := natParse
  signRender ssi _secret msg := natRender ssi ++ ":" ++ msg

end SsiMan

open SsiMan

/-- C9: for both backends, `paginated_identities` with `page = 0` hits the
debug-profile overflow panic: the 1-indexed page is decremented as unsigned
(`usize`) arithmetic, so `(page - 1) * per_page` underflows (`none` in the
model), for every store content and every `per_page`; the function is not
total over all `usize` page values. -/
theorem paginated_identities_page_zero_panics :
    (∀ (Ssi ESecret : Type) (recs : MemStore Ssi ESecret) (perPage : Nat),
      MemStore.paginated_identities recs 0 perPage = none) ∧
    (∀ (Uid Ssi Secret ESecret PubKey : Type)
      (C : SsiCrypto Uid Ssi Secret ESecret PubKey)
      (rows : SqlStore) (perPage : Nat),
      SqlStore.paginated_identities C rows 0 perPage = none) := by
  constructor
  · intro Ssi ESecret recs perPage
    simp [MemStore.paginated_identities, usizeSub]
  · intro Uid Ssi Secret ESecret PubKey C rows perPage
    simp [SqlStore.paginated_identities, usizeSub]

/-- C1 (failing input): on a store of `N = 2` records with
`page = 1, per_page = 10`, the memory backend returns `2` — the raw record
count `self.records.len()` — as the second component, while the claimed page
count is `ceil(2/10) = 1`, which is what the durable backend returns: the two
backends disagree and the memory backend does not compute `ceil(N/k)`. -/
theorem memory_page_count_is_record_count :
    MemStore.paginated_identities
      ([("a", 0, 0), ("b", 0, 0)] : MemStore Nat Nat) 1 10 =
      some (["a", "b"], 2) ∧
    SqlStore.paginated_identities testCrypto
      [⟨"a", natRender 0, natRender 0⟩, ⟨"b", natRender 0, natRender 0⟩] 1 10 =
      some (.ok (["a", "b"], 1)) ∧
    (2 : Nat) ≠ f64CeilPages 2 10 := by
  refine ⟨rfl, rfl, by decide⟩

/-- C2 (failing input): on the durable backend, inserting an identifier that
already has a row fails the primary-key UNIQUE constraint and returns a
wrapped diesel database error instead of overwriting; the memory backend
silently overwrites the record. -/
theorem sqlite_insert_duplicate_errors :
    SqlStore.insert testCrypto [⟨"luna", natRender 1, natRender 2⟩] "luna" 3 4 =
      .error (.Diesel .uniqueViolation) ∧
    Store.insert testCrypto (.memory [("luna", 1, 2)]) "luna" 3 4 =
      .ok (.memory [("luna", 3, 4)]) := by
  exact ⟨rfl, rfl⟩

/-- C4: for a stored identity `(s, e)`, signing with a password whose reveal
still yields a key `k` whose derived public value differs from the stored
descriptor's `pk` fails with the wrong-password signer error — an error kind
distinct from the secret-reveal (malformed-ciphertext) kind — and never
returns a certificate. -/
theorem sign_wrong_password_fails_wrong_key
    {Uid Ssi Secret ESecret PubKey : Type} [DecidableEq PubKey]
    (C : SsiCrypto Uid Ssi Secret ESecret PubKey)
    (st : Store Ssi ESecret) (id msg : String) (q : Option String)
    (s : Ssi) (e : ESecret) (k : Secret)
    (hget : Store.get C st id = .ok (s, e))
    (hreveal : C.reveal e (q.getD DEFAULT_EMPTY_PASSWORD) = .ok k)
    (hmismatch : C.toPublic k ≠ C.pkOf s) :
    sign C st id msg q = .error (.Signer .wrongPassword) ∧
    ∀ r : RevealError,
      (Error.Signer .wrongPassword : Error) ≠ .SecretReveal r := by
  refine ⟨?_, fun r => by simp⟩
  simp only [sign, bind, Except.bind, hget, hreveal, Except.mapError]
  rw [if_pos hmismatch]
  rfl

/-- Witness for C4: a memory store holding `("luna", (1, 5))` under
`testCrypto`; revealing `5` with password `"x"` yields key `4`, whose public
value `4` differs from the stored `pk = 1`, and `sign` indeed fails with the
wrong-password error. -/
theorem sign_wrong_password_fails_wrong_key_witness :
    (Store.get testCrypto (.memory [("luna", 1, 5)]) "luna" = .ok (1, 5) ∧
     testCrypto.reveal 5 ((some "x").getD DEFAULT_EMPTY_PASSWORD) = .ok 4 ∧
     testCrypto.toPublic 4 ≠ testCrypto.pkOf 1) ∧
    (sign testCrypto (.memory [("luna", 1, 5)]) "luna" "hello" (some "x") =
      .error (.Signer .wrongPassword) ∧
     ∀ r : RevealError,
       (Error.Signer .wrongPassword : Error) ≠ .SecretReveal r) :=
  ⟨⟨rfl, rfl, by decide⟩,
   sign_wrong_password_fails_wrong_key testCrypto (.memory [("luna", 1, 5)])
     "luna" "hello" (some "x") 1 5 4 rfl rfl (by decide)⟩

/-- C10: `ssi_sign` with a null `db_path` constructs a fresh `SsiMan` over an
empty memory backend for this invocation alone, so for every identifier,
message, and file-system state — in particular regardless of what earlier
FFI calls with a null path created — the `sign` call fails with
`UnknownIdentity` and the entry point returns the null failure sentinel. -/
theorem ssi_sign_null_db_path_returns_null
    {Uid Ssi Secret ESecret PubKey : Type} [DecidableEq PubKey]
    (C : SsiCrypto Uid Ssi Secret ESecret PubKey)
    (world : String → SqlStore) (ssiId message : String) :
    ssi_sign C world ssiId message none = none ∧
    (ssi_man_new world none : Store Ssi ESecret) = .memory [] ∧
    sign C (.memory [] : Store Ssi ESecret) ssiId message none =
      .error (.UnknownIdentity ssiId) := by
  refine ⟨?_, rfl, ?_⟩ <;>
    simp [ssi_sign, ssi_man_new, sign, Store.get, MemStore.get, bind,
      Except.bind]

/-- The loop of `free_string_array` frees exactly the non-null entries, in
order. -/
theorem freeLoop_eq_filterMap (l : List (Option CStrPtr)) :
    freeLoop l = l.filterMap id := by
  induction l with
  | nil => rfl
  | cons hd tl ih => cases hd <;> simp [freeLoop, ih]

/-- C8: `free_string_array` with a null array pointer frees nothing for every
length; with a non-null array of length `n` it frees exactly the non-null
string elements among the first `n` — each pointer is dropped exactly as many
times as it occurs there (so exactly once per element), and nothing else is
freed. -/
theorem free_string_array_frees_exactly_non_null :
    (∀ len, free_string_array none len = []) ∧
    (∀ (ptrs : List (Option CStrPtr)) (len : Nat) (p : CStrPtr),
      (free_string_array (some ptrs) len).count p =
        ((ptrs.take len).filter (fun s => s = some p)).length) ∧
    (∀ (ptrs : List (Option CStrPtr)) (len : Nat) (p : CStrPtr),
      p ∈ free_string_array (some ptrs) len → some p ∈ ptrs.take len) := by
  refine ⟨fun _ => rfl, ?_, ?_⟩
  · intro ptrs len p
    simp only [free_string_array, freeLoop_eq_filterMap]
    induction ptrs.take len with
    | nil => rfl
    | cons hd tl ih =>
      cases hd with
      | none => simpa using ih
      | some q =>
        by_cases h : q = p
        · subst h
          simp [List.count_cons, ih]
        · simp [List.count_cons, ih, h, Ne.symm h]
  · intro ptrs len p hmem
    simp only [free_string_array, freeLoop_eq_filterMap] at hmem
    rcases List.mem_filterMap.mp hmem with ⟨a, ha, hfa⟩
    rw [id] at hfa
    exact hfa ▸ ha

/-- After the replace branch of `SsiMemoryStore::insert`, the first entry
matching the key is the replaced one. -/
theorem find?_map_replace {Ssi ESecret : Type} (id : String) (s : Ssi)
    (e : ESecret) :
    ∀ recs : MemStore Ssi ESecret, recs.any (fun r => r.1 = id) = true →
      (recs.map (fun r => if r.1 = id then (id, s, e) else r)).find?
        (fun r => r.1 = id) = some (id, s, e)
  | [], h => by simp at h
  | r :: tl, h => by
    by_cases hr : r.1 = id
    · simp [hr]
    · have h' : tl.any (fun r => r.1 = id) = true := by simpa [hr] using h
      simpa [hr] using find?_map_replace id s e tl h'

/-- Memory-backend round-trip: `get` right after `insert` returns exactly the
inserted descriptor and secret (both in the overwrite and the fresh case). -/
theorem mem_get_after_insert {Ssi ESecret : Type}
    (recs : MemStore Ssi ESecret) (id : String) (s : Ssi) (e : ESecret) :
    MemStore.get (MemStore.insert recs id s e) id = .ok (s, e) := by
  unfold MemStore.insert MemStore.get
  by_cases h : recs.any (fun r => r.1 = id)
  · rw [if_pos h, find?_map_replace id s e recs h]
  · rw [if_neg h]
    have h' : recs.any (fun r => decide (r.1 = id)) = false :=
      Bool.eq_false_iff.mpr h
    have hnone : recs.find? (fun r => decide (r.1 = id)) = none := by
      rw [List.find?_eq_none]
      intro x hx
      simpa using List.any_eq_false.mp h' x hx
    simp [List.find?_append, hnone]

/-- Durable-backend round-trip: after a successful `INSERT`, `get` of the same
identifier deserializes the freshly written row back to the inserted values,
provided the external `Display`/`FromStr` pair round-trips on them. -/
theorem sql_get_after_insert {Uid Ssi Secret ESecret PubKey : Type}
    (C : SsiCrypto Uid Ssi Secret ESecret PubKey)
    (rows rows' : SqlStore) (id : String) (s : Ssi) (e : ESecret)
    (hs : C.parseSsi (C.renderSsi s) = some s)
    (he : C.parseSecret (C.renderSecret e) = some e)
    (hins : SqlStore.insert C rows id s e = .ok rows') :
    SqlStore.get C rows' id = .ok (s, e) := by
  unfold SqlStore.insert at hins
  by_cases h : rows.any (fun r => r.id = id)
  · rw [if_pos h] at hins
    simp at hins
  · rw [if_neg h] at hins
    injection hins with hrows
    subst hrows
    have h' : rows.any (fun r => decide (r.id = id)) = false :=
      Bool.eq_false_iff.mpr h
    have hnone : rows.find? (fun r => decide (r.id = id)) = none := by
      rw [List.find?_eq_none]
      intro x hx
      simpa using List.any_eq_false.mp h' x hx
    simp [SqlStore.get, List.find?_append, hnone, Row.deserialize, sqlFromSql,
      sqlToSql, hs, he, bind, Except.bind, pure, Except.pure]

/-- C5: for every identifier, descriptor, and secret, `get` directly after
`insert` returns the inserted values: unconditionally on the memory backend,
and on the durable backend for every successful insert, where both text
columns pass through the serialization adapter whose `from_sql ∘ to_sql`
composition is the identity whenever the external `parse(render(v)) = v`
round-trip holds. -/
theorem get_after_insert_returns_inserted
    {Uid Ssi Secret ESecret PubKey : Type}
    (C : SsiCrypto Uid Ssi Secret ESecret PubKey)
    (recs : MemStore Ssi ESecret) (rows rows' : SqlStore)
    (id : String) (s : Ssi) (e : ESecret)
    (hs : C.parseSsi (C.renderSsi s) = some s)
    (he : C.parseSecret (C.renderSecret e) = some e)
    (hins : SqlStore.insert C rows id s e = .ok rows') :
    MemStore.get (MemStore.insert recs id s e) id = .ok (s, e) ∧
    sqlFromSql C.parseSsi (sqlToSql C.renderSsi s) = .ok s ∧
    sqlFromSql C.parseSecret (sqlToSql C.renderSecret e) = .ok e ∧
    SqlStore.get C rows' id = .ok (s, e) :=
  ⟨mem_get_after_insert recs id s e,
   by simp [sqlFromSql, sqlToSql, hs],
   by simp [sqlFromSql, sqlToSql, he],
   sql_get_after_insert C rows rows' id s e hs he hins⟩

/-- Witness for C5: inserting `("luna", 1, 2)` into the empty memory store and
the empty durable store under `testCrypto` (whose render/parse pair
round-trips), `get "luna"` returns `(1, 2)` on both. -/
theorem get_after_insert_returns_inserted_witness :
    (testCrypto.parseSsi (testCrypto.renderSsi 1) = some 1 ∧
     testCrypto.parseSecret (testCrypto.renderSecret 2) = some 2 ∧
     SqlStore.insert testCrypto [] "luna" 1 2 =
       .ok [⟨"luna", natRender 1, natRender 2⟩]) ∧
    (MemStore.get (MemStore.insert ([] : MemStore Nat Nat) "luna" 1 2)
        "luna" = .ok (1, 2) ∧
     sqlFromSql testCrypto.parseSsi (sqlToSql testCrypto.renderSsi 1) =
       .ok 1 ∧
     sqlFromSql testCrypto.parseSecret
         (sqlToSql testCrypto.renderSecret 2) = .ok 2 ∧
     SqlStore.get testCrypto [⟨"luna", natRender 1, natRender 2⟩] "luna" =
       .ok (1, 2)) :=
  ⟨⟨rfl, rfl, rfl⟩,
   get_after_insert_returns_inserted testCrypto [] []
     [⟨"luna", natRender 1, natRender 2⟩] "luna" 1 2 rfl rfl rfl⟩

/-- C6: on both backends, removing an absent identifier returns `Ok(false)`
(and leaves the store unchanged) rather than an error, and removing a stored
identifier twice in a row returns `Ok(true)` then `Ok(false)`. The durable
backend reports `rows_affected == 1`, so its present case assumes the
(primary-key-guaranteed) single matching row. -/
theorem remove_absent_false_and_twice_true_false
    {Ssi ESecret : Type} (id : String)
    (recsA : MemStore Ssi ESecret) (rowsA : SqlStore)
    (hA : recsA.any (fun r => r.1 = id) = false)
    (hA' : rowsA.any (fun r => r.id = id) = false)
    (recsP : MemStore Ssi ESecret) (rowsP : SqlStore)
    (hP : recsP.any (fun r => r.1 = id) = true)
    (hP' : (rowsP.filter (fun r => r.id = id)).length = 1) :
    MemStore.remove recsA id = .ok (false, recsA) ∧
    SqlStore.remove rowsA id = .ok (false, rowsA) ∧
    (∃ recs', MemStore.remove recsP id = .ok (true, recs') ∧
       MemStore.remove recs' id = .ok (false, recs')) ∧
    (∃ rows', SqlStore.remove rowsP id = .ok (true, rows') ∧
       SqlStore.remove rows' id = .ok (false, rows')) := by
  refine ⟨?_, ?_, ?_, ?_⟩
  · have hall := List.any_eq_false.mp hA
    simp [MemStore.remove, hA]
    intro a a1 b hmem
    simpa using hall (a, a1, b) hmem
  · have hall := List.any_eq_false.mp hA'
    have hfil : rowsA.filter (fun r => r.id = id) = [] := by
      rw [List.filter_eq_nil_iff]
      intro a ha
      simpa using hall a ha
    simp [SqlStore.remove, hfil]
    intro a ha
    simpa using hall a ha
  · refine ⟨recsP.filter (fun r => ¬ r.1 = id), ?_, ?_⟩
    · simp [MemStore.remove, hP]
    · have hgone : (recsP.filter (fun r => ¬ r.1 = id)).any
          (fun r => r.1 = id) = false := by
        rw [List.any_eq_false]
        intro x hx
        have := (List.mem_filter.mp hx).2
        simpa using this
      have hkeep : (recsP.filter (fun r => ¬ r.1 = id)).filter
          (fun r => ¬ r.1 = id) = recsP.filter (fun r => ¬ r.1 = id) :=
        List.filter_eq_self.mpr (fun a ha => (List.mem_filter.mp ha).2)
      simp [MemStore.remove, hgone, hkeep]
  · refine ⟨rowsP.filter (fun r => ¬ r.id = id), ?_, ?_⟩
    · simp [SqlStore.remove, hP']
    · have hgone : (rowsP.filter (fun r => ¬ r.id = id)).filter
          (fun r => r.id = id) = [] := by
        rw [List.filter_eq_nil_iff]
        intro x hx
        have := (List.mem_filter.mp hx).2
        simpa using this
      have hkeep : (rowsP.filter (fun r => ¬ r.id = id)).filter
          (fun r => ¬ r.id = id) = rowsP.filter (fun r => ¬ r.id = id) :=
        List.filter_eq_self.mpr (fun a ha => (List.mem_filter.mp ha).2)
      simp [SqlStore.remove, hgone, hkeep]

/-- Witness for C6: the empty stores for the absent case, and one-record
stores holding `"luna"` for the present case. -/
theorem remove_absent_false_and_twice_true_false_witness :
    (([] : MemStore Nat Nat).any (fun r => r.1 = "luna") = false ∧
     ([] : SqlStore).any (fun r => r.id = "luna") = false ∧
     ([("luna", 1, 2)] : MemStore Nat Nat).any
       (fun r => r.1 = "luna") = true ∧
     (([⟨"luna", "a", "aa"⟩] : SqlStore).filter
       (fun r => r.id = "luna")).length = 1) ∧
    (MemStore.remove ([] : MemStore Nat Nat) "luna" = .ok (false, []) ∧
     SqlStore.remove ([] : SqlStore) "luna" = .ok (false, []) ∧
     (∃ recs', MemStore.remove ([("luna", 1, 2)] : MemStore Nat Nat)
         "luna" = .ok (true, recs') ∧
       MemStore.remove recs' "luna" = .ok (false, recs')) ∧
     (∃ rows', SqlStore.remove ([⟨"luna", "a", "aa"⟩] : SqlStore) "luna" =
         .ok (true, rows') ∧
       SqlStore.remove rows' "luna" = .ok (false, rows'))) :=
  ⟨⟨rfl, rfl, by decide, by decide⟩,
   remove_absent_false_and_twice_true_false "luna" [] [] rfl rfl
     [("luna", 1, 2)] [⟨"luna", "a", "aa"⟩] (by decide) (by decide)⟩

/-- C7: whenever the UID parses, `new_ssi` inserts under the display name the
identity built from the pre-generated fresh secret together with that secret
concealed under the supplied password (the empty string when none is given),
and returns the textual rendering of the public identity exactly when the
insert succeeds; an insert failure is returned as the error of the whole call
(the model's store is left untouched, no record having been produced). -/
theorem new_ssi_insert_contract
    {Uid Ssi Secret ESecret PubKey : Type} [DecidableEq PubKey]
    (C : SsiCrypto Uid Ssi Secret ESecret PubKey) (fresh : Secret)
    (st : Store Ssi ESecret) (identity email : String) (pw : Option String)
    (uid : Uid)
    (hu : C.parseUid (identity ++ " <mailto:" ++ email ++ ">") = some uid) :
    (∀ st', new_ssi C fresh st identity email pw =
        .ok (C.renderSsi (C.mkSsi uid fresh), st') ↔
      Store.insert C st identity (C.mkSsi uid fresh)
        (C.conceal fresh (pw.getD DEFAULT_EMPTY_PASSWORD)) = .ok st') ∧
    (∀ out st', new_ssi C fresh st identity email pw = .ok (out, st') →
      out = C.renderSsi (C.mkSsi uid fresh)) ∧
    (∀ err, Store.insert C st identity (C.mkSsi uid fresh)
        (C.conceal fresh (pw.getD DEFAULT_EMPTY_PASSWORD)) = .error err →
      new_ssi C fresh st identity email pw = .error err) := by
  cases hins : Store.insert C st identity (C.mkSsi uid fresh)
      (C.conceal fresh (pw.getD DEFAULT_EMPTY_PASSWORD)) with
  | ok st0 =>
    refine ⟨fun st' => ?_, fun out st' hok => ?_, fun err herr => ?_⟩
    · simp [new_ssi, hu, hins, Except.map]
    · simp [new_ssi, hu, hins, Except.map] at hok
      exact hok.1.symm
    · simp at herr
  | error err0 =>
    refine ⟨fun st' => ?_, fun out st' hok => ?_, fun err herr => ?_⟩
    · simp [new_ssi, hu, hins, Except.map]
    · simp [new_ssi, hu, hins, Except.map] at hok
    · simp only [herr] at hins ⊢
      simp [new_ssi, hu, hins, Except.map]

/-- Witness for C7: `testCrypto`, fresh secret `3`, empty memory store,
display name `"luna"`, email `"l@b.com"`, no password. -/
theorem new_ssi_insert_contract_witness :
    (testCrypto.parseUid ("luna" ++ " <mailto:" ++ "l@b.com" ++ ">") =
      some 21) ∧
    ((∀ st', new_ssi testCrypto 3 (.memory []) "luna" "l@b.com" none =
        .ok (testCrypto.renderSsi (testCrypto.mkSsi 21 3), st') ↔
      Store.insert testCrypto (.memory []) "luna" (testCrypto.mkSsi 21 3)
        (testCrypto.conceal 3 (Option.getD none DEFAULT_EMPTY_PASSWORD)) =
        .ok st') ∧
     (∀ out st',
        new_ssi testCrypto 3 (.memory []) "luna" "l@b.com" none =
          .ok (out, st') →
        out = testCrypto.renderSsi (testCrypto.mkSsi 21 3)) ∧
     (∀ err, Store.insert testCrypto (.memory []) "luna"
         (testCrypto.mkSsi 21 3)
         (testCrypto.conceal 3 (Option.getD none DEFAULT_EMPTY_PASSWORD)) =
         .error err →
       new_ssi testCrypto 3 (.memory []) "luna" "l@b.com" none =
         .error err)) :=
  ⟨rfl, new_ssi_insert_contract testCrypto 3 (.memory []) "luna" "l@b.com"
    none 21 rfl⟩

/-- C3 (failing input): `get` of an absent identifier on the durable backend
surfaces diesel's `NotFound` wrapped as `Error::Diesel`, which is a different
error kind from the `UnknownIdentity("luna")` the memory backend (and the
claim) produce. -/
theorem sqlite_get_absent_is_diesel_not_found :
    SqlStore.get testCrypto [] "luna" = .error (.Diesel .notFound) ∧
    MemStore.get ([] : MemStore Nat Nat) "luna" =
      .error (.UnknownIdentity "luna") ∧
    Error.Diesel .notFound ≠ Error.UnknownIdentity "luna" := by
  refine ⟨rfl, rfl, by decide⟩
